import Mathlib

/-
Verification of the scheduling core of a university scheduling web application
(presentation/defense scheduling with reschedule workflows, timetable conflict
validation, and slot suggestion).

Shallow embedding conventions:
* Clock times ("HH:MM" strings in the code) are embedded as minutes since
  midnight (Nat).  The code compares such strings with MongoDB's `$lt`/`$gt`
  and JavaScript's `<`/`>`/`localeCompare`, all of which are lexicographic;
  for strings matching the validated `HH:MM` 24-hour format, lexicographic
  order coincides with numeric order of minutes, so Nat comparison is the
  faithful image of the string comparison.
* Calendar dates (ISO "YYYY-MM-DD" strings) are embedded as day numbers (Nat);
  the code only ever tests dates for equality and generates consecutive dates,
  both of which are preserved by this encoding.
* MongoDB ObjectIds are embedded as Nat.
* The document store is embedded as explicit lists of records; `findOne`
  becomes `List.find?`, `$in` on an array field becomes a membership test,
  and `findByIdAndUpdate` becomes a `List.map` that rewrites the record with
  the matching id.
-/

/-- A presentation time range; `startTime`/`endTime` are minutes since
midnight (the code stores "HH:MM" strings). -/
structure TimeRange where
  startTime : Nat
  endTime : Nat
deriving DecidableEq, Repr

/-- A stored Presentation document (presentation.controller.js data model):
date, department, time range, duration, a venue reference and arrays of
examiner and student references. -/
structure Presentation where
  pid : Nat
  date : Nat
  department : String
  timeRange : TimeRange
  duration : Nat
  venue : Nat
  examiners : List Nat
  students : List Nat
deriving DecidableEq, Repr

/-- First disjunct of the `$or` time condition in `isTimeSlotAvailable`:
`{ "timeRange.startTime": { $lt: endTime }, "timeRange.endTime": { $gt: startTime } }`. -/
def timeCondOverlap (tr : TimeRange) (startTime endTime : Nat) : Prop :=
  tr.startTime < endTime ∧ tr.endTime > startTime

/-- Second disjunct: `{ "timeRange.startTime": { $gte: startTime, $lt: endTime } }`. -/
def timeCondStartInside (tr : TimeRange) (startTime endTime : Nat) : Prop :=
  tr.startTime ≥ startTime ∧ tr.startTime < endTime

/-- Third disjunct: `{ "timeRange.endTime": { $gt: startTime, $lte: endTime } }`. -/
def timeCondEndInside (tr : TimeRange) (startTime endTime : Nat) : Prop :=
  tr.endTime > startTime ∧ tr.endTime ≤ endTime

/-- The full `timeCondition` `$or` built in `isTimeSlotAvailable`
(presentation.controller.js lines 34-40). -/
def timeCondition (tr : TimeRange) (startTime endTime : Nat) : Prop :=
  timeCondOverlap tr startTime endTime ∨ timeCondStartInside tr startTime endTime ∨
    timeCondEndInside tr startTime endTime

instance (tr : TimeRange) (s e : Nat) : Decidable (timeCondition tr s e) := by
  unfold timeCondition timeCondOverlap timeCondStartInside timeCondEndInside
  exact inferInstance

/-- A stored presentation matches the availability query's date and time
condition. -/
def presTimeMatch (p : Presentation) (date startTime endTime : Nat) : Bool :=
  p.date == date && decide (timeCondition p.timeRange startTime endTime)

/-- Examiner dimension of `isTimeSlotAvailable`: executed when the examiner
list is non-empty; `examiners: { $in: safeExaminers }` matches a stored
presentation whose `examiners` array shares a member with the query list. -/
def examinerConflict (db : List Presentation) (date startTime endTime : Nat)
    (examiners : List Nat) : Bool :=
  decide (examiners.length > 0) &&
    db.any (fun p => presTimeMatch p date startTime endTime &&
      p.examiners.any (fun x => examiners.contains x))

/-- Venue dimension of `isTimeSlotAvailable`: executed only when a venue is
given (`if (venue)`), and matches a stored presentation with that venue. -/
def venueConflict (db : List Presentation) (date startTime endTime : Nat)
    (venue : Option Nat) : Bool :=
  match venue with
  | some v => db.any (fun p => presTimeMatch p date startTime endTime && p.venue == v)
  | none => false

/-- Student dimension of `isTimeSlotAvailable`: executed when the student list
is non-empty; `students: { $in: students }` matches a shared student. -/
def studentConflict (db : List Presentation) (date startTime endTime : Nat)
    (students : List Nat) : Bool :=
  decide (students.length > 0) &&
    db.any (fun p => presTimeMatch p date startTime endTime &&
      p.students.any (fun x => students.contains x))

/-- `isTimeSlotAvailable` (presentation.controller.js lines 32-78): three
sequential `findOne` existence probes, each returning `false` on a hit;
`true` when no dimension conflicts. -/
def isTimeSlotAvailable (db : List Presentation) (date startTime endTime : Nat)
    (examiners : List Nat) (venue : Option Nat) (students : List Nat) : Bool :=
  if examinerConflict db date startTime endTime examiners then false
  else if venueConflict db date startTime endTime venue then false
  else if studentConflict db date startTime endTime students then false
  else true

theorem isTimeSlotAvailable_eq_false_iff (db : List Presentation)
    (date startTime endTime : Nat) (examiners : List Nat) (venue : Option Nat)
    (students : List Nat) :
    isTimeSlotAvailable db date startTime endTime examiners venue students = false ↔
      (examinerConflict db date startTime endTime examiners = true ∨
       venueConflict db date startTime endTime venue = true ∨
       studentConflict db date startTime endTime students = true) := by
  unfold isTimeSlotAvailable
  cases hE : examinerConflict db date startTime endTime examiners <;>
    cases hV : venueConflict db date startTime endTime venue <;>
      cases hS : studentConflict db date startTime endTime students <;> simp

theorem timeCondOverlap_of_overlap {tr : TimeRange} {s e : Nat}
    (h1 : s < tr.endTime) (h2 : tr.startTime < e) : timeCondition tr s e := by
  exact Or.inl ⟨h2, h1⟩

/-- Claim C1: if a stored presentation B shares a date, an overlapping
(half-open) time range, and at least one examiner, the venue, or one student
with the requested slot, then `isTimeSlotAvailable` returns `false`; a
conflict on any single non-empty dimension alone suffices, and with all
dimensions empty or absent no conflict is ever reported. -/
theorem c1_shared_dimension_unavailable :
    (∀ (db : List Presentation) (b : Presentation) (date startTime endTime : Nat)
        (examiners : List Nat) (venue : Option Nat) (students : List Nat),
        b ∈ db → b.date = date →
        startTime < b.timeRange.endTime → b.timeRange.startTime < endTime →
        ((∃ x, x ∈ examiners ∧ x ∈ b.examiners) ∨ venue = some b.venue ∨
          (∃ x, x ∈ students ∧ x ∈ b.students)) →
        isTimeSlotAvailable db date startTime endTime examiners venue students = false) ∧
    (∀ (db : List Presentation) (date startTime endTime : Nat),
        isTimeSlotAvailable db date startTime endTime [] none [] = true) := by
  constructor
  · intro db b date startTime endTime examiners venue students hmem hdate hov1 hov2 hshare
    have htc : presTimeMatch b date startTime endTime = true := by
      simp [presTimeMatch, hdate]
      exact timeCondOverlap_of_overlap hov1 hov2
    rw [isTimeSlotAvailable_eq_false_iff]
    rcases hshare with ⟨x, hxq, hxb⟩ | hv | ⟨x, hxq, hxb⟩
    · refine Or.inl ?_
      unfold examinerConflict
      simp only [Bool.and_eq_true, decide_eq_true_eq, List.any_eq_true]
      refine ⟨List.length_pos.mpr (by rintro rfl; exact (List.not_mem_nil x) hxq), b, hmem, ?_⟩
      exact ⟨htc, x, hxb, by simpa using hxq⟩
    · refine Or.inr (Or.inl ?_)
      unfold venueConflict
      subst hv
      simp only [List.any_eq_true]
      exact ⟨b, hmem, by simp [htc]⟩
    · refine Or.inr (Or.inr ?_)
      unfold studentConflict
      simp only [Bool.and_eq_true, decide_eq_true_eq, List.any_eq_true]
      refine ⟨List.length_pos.mpr (by rintro rfl; exact (List.not_mem_nil x) hxq), b, hmem, ?_⟩
      exact ⟨htc, x, hxb, by simpa using hxq⟩
  · intro db date startTime endTime
    simp [isTimeSlotAvailable, examinerConflict, venueConflict, studentConflict]

/-- Witness for C1 at a concrete input: a stored presentation with examiner 1
on date 0 at 600-660 blocks a requested 630-690 slot listing examiner 1, and
the empty query never conflicts. -/
theorem c1_witness :
    isTimeSlotAvailable
      [⟨0, 0, "SE", ⟨600, 660⟩, 60, 5, [1], [2]⟩] 0 630 690 [1] none [] = false ∧
    isTimeSlotAvailable
      [⟨0, 0, "SE", ⟨600, 660⟩, 60, 5, [1], [2]⟩] 0 630 690 [] none [] = true := by
  refine ⟨?_, c1_shared_dimension_unavailable.2 _ 0 630 690⟩
  exact c1_shared_dimension_unavailable.1
    [⟨0, 0, "SE", ⟨600, 660⟩, 60, 5, [1], [2]⟩]
    ⟨0, 0, "SE", ⟨600, 660⟩, 60, 5, [1], [2]⟩ 0 630 690 [1] none []
    (by decide) (by decide) (by decide) (by decide)
    (Or.inl ⟨1, by decide, by decide⟩)

/-- Claim C2: half-open interval semantics.  For a stored presentation with a
non-empty time range, a range ending exactly at the requested start (or
starting exactly at the requested end) matches no disjunct of the time
condition, hence reports no conflict even in a one-element store; and the time
condition holds iff `s1 < e2 ∧ s2 < e1`. -/
theorem c2_half_open_boundary :
    (∀ (tr : TimeRange) (s e : Nat), tr.startTime < tr.endTime →
        (tr.endTime = s ∨ tr.startTime = e) → ¬ timeCondition tr s e) ∧
    (∀ (tr : TimeRange) (s e : Nat), tr.startTime < tr.endTime →
        (timeCondition tr s e ↔ (tr.startTime < e ∧ s < tr.endTime))) ∧
    (∀ (b : Presentation) (date startTime endTime : Nat) (examiners : List Nat)
        (venue : Option Nat) (students : List Nat),
        b.timeRange.startTime < b.timeRange.endTime →
        (b.timeRange.endTime = startTime ∨ b.timeRange.startTime = endTime) →
        isTimeSlotAvailable [b] date startTime endTime examiners venue students = true) := by
  have hbound : ∀ (tr : TimeRange) (s e : Nat), tr.startTime < tr.endTime →
      (tr.endTime = s ∨ tr.startTime = e) → ¬ timeCondition tr s e := by
    intro tr s e hwf hb
    unfold timeCondition timeCondOverlap timeCondStartInside timeCondEndInside
    omega
  refine ⟨hbound, ?_, ?_⟩
  · intro tr s e hwf
    unfold timeCondition timeCondOverlap timeCondStartInside timeCondEndInside
    omega
  · intro b date startTime endTime examiners venue students hwf hb
    have htc : presTimeMatch b date startTime endTime = false := by
      simp [presTimeMatch, decide_eq_false_iff_not]
      intro _
      exact hbound b.timeRange startTime endTime hwf hb
    unfold isTimeSlotAvailable examinerConflict venueConflict studentConflict
    simp [htc]
    cases venue <;> simp [htc]

/-- Witness for C2 at a concrete input: a 600-660 range neither conflicts with
a requested 660-720 slot (end touches start) nor with 540-600 (start touches
end), and the overlap characterisation holds at 600-660 vs 630-690. -/
theorem c2_witness :
    (¬ timeCondition ⟨600, 660⟩ 660 720) ∧
    (timeCondition ⟨600, 660⟩ 630 690 ↔ (600 < 690 ∧ 630 < 660)) ∧
    isTimeSlotAvailable [⟨0, 0, "SE", ⟨600, 660⟩, 60, 5, [1], [2]⟩]
      0 660 720 [1] (some 5) [2] = true := by
  refine ⟨c2_half_open_boundary.1 ⟨600, 660⟩ 660 720 (by decide) (Or.inl rfl),
    c2_half_open_boundary.2.1 ⟨600, 660⟩ 630 690 (by decide), ?_⟩
  exact c2_half_open_boundary.2.2 ⟨0, 0, "SE", ⟨600, 660⟩, 60, 5, [1], [2]⟩
    0 660 720 [1] (some 5) [2] (by decide) (Or.inl rfl)

/-- The single half-open overlap test the `$or` is claimed to be equivalent
to, written from the claim's words: existingStart < requestedEnd AND
existingEnd > requestedStart. -/
def singleOverlapTest (tr : TimeRange) (startTime endTime : Nat) : Prop :=
  tr.startTime < endTime ∧ tr.endTime > startTime

/-- Claim C10: for a stored record with a non-empty time range, the
three-disjunct `$or` built in `isTimeSlotAvailable` is equivalent to the
single half-open overlap test, and the second and third disjuncts never match
a record the first does not. -/
theorem c10_or_condition_refines_overlap :
    ∀ (tr : TimeRange) (s e : Nat), tr.startTime < tr.endTime →
      ((timeCondition tr s e ↔ singleOverlapTest tr s e) ∧
       (timeCondStartInside tr s e → timeCondOverlap tr s e) ∧
       (timeCondEndInside tr s e → timeCondOverlap tr s e)) := by
  intro tr s e hwf
  unfold timeCondition singleOverlapTest timeCondOverlap timeCondStartInside timeCondEndInside
  omega

/-- Witness for C10 at a concrete input: the equivalence and the
disjunct-absorption facts hold for the stored range 600-660 against the
requested range 630-690. -/
theorem c10_witness :
    (timeCondition ⟨600, 660⟩ 630 690 ↔ singleOverlapTest ⟨600, 660⟩ 630 690) ∧
    (timeCondStartInside ⟨600, 660⟩ 630 690 → timeCondOverlap ⟨600, 660⟩ 630 690) ∧
    (timeCondEndInside ⟨600, 660⟩ 630 690 → timeCondOverlap ⟨600, 660⟩ 630 690) :=
  c10_or_condition_refines_overlap ⟨600, 660⟩ 630 690 (by decide)

/-- The requested target slot of a reschedule request: date, time range and
venue reference (reschedule.model.js `requestedSlot`). -/
structure RequestedSlot where
  date : Nat
  timeRange : TimeRange
  venue : Nat
deriving DecidableEq, Repr

/-- A RescheduleRequest document: presentation reference, requested slot,
reason and status string ("Pending" / "Approved" / "Rejected"). -/
structure RescheduleRequest where
  rid : Nat
  presentationId : Nat
  requestedSlot : RequestedSlot
  reason : String
  status : String
deriving DecidableEq, Repr

/-- Result of `approveOrRejectReschedule`: the (possibly updated) presentation
store, the saved request, and the HTTP status code returned. -/
structure RescheduleOutcome where
  presentations : List Presentation
  request : RescheduleRequest
  httpStatus : Nat
deriving DecidableEq, Repr

/-- `Presentation.findByIdAndUpdate(presentation._id, { date, timeRange, venue })`:
overwrite the slot fields of the record with the matching id in place. -/
def applyRequestedSlot (slot : RequestedSlot) (p : Presentation) : Presentation :=
  { p with date := slot.date, timeRange := slot.timeRange, venue := slot.venue }

/-- `approveOrRejectReschedule` (presentation.controller.js lines 776-859).
The request's presentation is resolved first (404 when absent); an explicit
"Reject" action marks the request Rejected; any other action takes the approve
path, which re-runs `isTimeSlotAvailable` on the requested slot with the
presentation's current examiners and students and the requested venue: on
failure the request is auto-rejected with HTTP 400 and nothing else changes,
on success the presentation's date/timeRange/venue are overwritten and the
request is marked Approved.  Email side effects are outside the store and are
not modelled. -/
def approveOrRejectReschedule (db : List Presentation) (request : RescheduleRequest)
    (action : String) : RescheduleOutcome :=
  match db.find? (fun p => p.pid == request.presentationId) with
  | none => ⟨db, request, 404⟩
  | some presentation =>
    if action == "Reject" then
      ⟨db, { request with status := "Rejected" }, 200⟩
    else
      let slot := request.requestedSlot
      if isTimeSlotAvailable db slot.date slot.timeRange.startTime slot.timeRange.endTime
          presentation.examiners (some slot.venue) presentation.students then
        ⟨db.map (fun p => if p.pid == presentation.pid then applyRequestedSlot slot p else p),
          { request with status := "Approved" }, 200⟩
      else
        ⟨db, { request with status := "Rejected" }, 400⟩

/-- Claim C3: on the approve path, when the availability check for the
requested slot fails, the request is saved as "Rejected" with HTTP 400 and the
presentation store is left completely unchanged. -/
theorem c3_stale_approval_autoreject :
    ∀ (db : List Presentation) (request : RescheduleRequest) (action : String)
      (p : Presentation), action ≠ "Reject" →
      db.find? (fun q => q.pid == request.presentationId) = some p →
      isTimeSlotAvailable db request.requestedSlot.date
        request.requestedSlot.timeRange.startTime request.requestedSlot.timeRange.endTime
        p.examiners (some request.requestedSlot.venue) p.students = false →
      (approveOrRejectReschedule db request action).presentations = db ∧
      (approveOrRejectReschedule db request action).request.status = "Rejected" ∧
      (approveOrRejectReschedule db request action).httpStatus = 400 := by
  intro db request action p hact hfind havail
  have hbeq : (action == "Reject") = false := by
    simp [hact]
  unfold approveOrRejectReschedule
  rw [hfind]
  simp [hbeq, havail]

/-- Witness for C3: the requested slot collides with the presentation's own
current booking (same date, overlapping range, same examiners), so the
approve action auto-rejects and leaves the store untouched. -/
theorem c3_witness :
    (approveOrRejectReschedule [⟨7, 3, "SE", ⟨600, 660⟩, 60, 5, [1], [2]⟩]
        ⟨0, 7, ⟨3, ⟨630, 690⟩, 9⟩, "clash", "Pending"⟩ "Approve").presentations =
      [⟨7, 3, "SE", ⟨600, 660⟩, 60, 5, [1], [2]⟩] ∧
    (approveOrRejectReschedule [⟨7, 3, "SE", ⟨600, 660⟩, 60, 5, [1], [2]⟩]
        ⟨0, 7, ⟨3, ⟨630, 690⟩, 9⟩, "clash", "Pending"⟩ "Approve").request.status = "Rejected" ∧
    (approveOrRejectReschedule [⟨7, 3, "SE", ⟨600, 660⟩, 60, 5, [1], [2]⟩]
        ⟨0, 7, ⟨3, ⟨630, 690⟩, 9⟩, "clash", "Pending"⟩ "Approve").httpStatus = 400 :=
  c3_stale_approval_autoreject
    [⟨7, 3, "SE", ⟨600, 660⟩, 60, 5, [1], [2]⟩]
    ⟨0, 7, ⟨3, ⟨630, 690⟩, 9⟩, "clash", "Pending"⟩ "Approve"
    ⟨7, 3, "SE", ⟨600, 660⟩, 60, 5, [1], [2]⟩
    (by decide) (by decide) (by decide)

/-- Claim C4: on the approve path the request ends "Approved" exactly when the
availability checker reports the requested slot free for the presentation's
existing examiners and students and the requested venue; exactly then the
presentation's date/timeRange/venue are overwritten in place, otherwise the
store is unchanged; an explicit "Reject" action never approves. -/
theorem c4_approve_transition :
    (∀ (db : List Presentation) (request : RescheduleRequest) (action : String)
        (p : Presentation), action ≠ "Reject" →
        db.find? (fun q => q.pid == request.presentationId) = some p →
        (((approveOrRejectReschedule db request action).request.status = "Approved") ↔
          isTimeSlotAvailable db request.requestedSlot.date
            request.requestedSlot.timeRange.startTime request.requestedSlot.timeRange.endTime
            p.examiners (some request.requestedSlot.venue) p.students = true) ∧
        (isTimeSlotAvailable db request.requestedSlot.date
            request.requestedSlot.timeRange.startTime request.requestedSlot.timeRange.endTime
            p.examiners (some request.requestedSlot.venue) p.students = true →
          (approveOrRejectReschedule db request action).presentations =
            db.map (fun q => if q.pid == p.pid then applyRequestedSlot request.requestedSlot q
              else q) ∧
          (approveOrRejectReschedule db request action).request.status = "Approved") ∧
        (isTimeSlotAvailable db request.requestedSlot.date
            request.requestedSlot.timeRange.startTime request.requestedSlot.timeRange.endTime
            p.examiners (some request.requestedSlot.venue) p.students = false →
          (approveOrRejectReschedule db request action).presentations = db ∧
          (approveOrRejectReschedule db request action).request.status = "Rejected")) ∧
    (∀ (db : List Presentation) (request : RescheduleRequest) (p : Presentation),
        db.find? (fun q => q.pid == request.presentationId) = some p →
        (approveOrRejectReschedule db request "Reject").request.status = "Rejected" ∧
        (approveOrRejectReschedule db request "Reject").presentations = db) := by
  constructor
  · intro db request action p hact hfind
    have hbeq : (action == "Reject") = false := by
      simp [hact]
    cases havail : isTimeSlotAvailable db request.requestedSlot.date
        request.requestedSlot.timeRange.startTime request.requestedSlot.timeRange.endTime
        p.examiners (some request.requestedSlot.venue) p.students with
    | false =>
      refine ⟨?_, ?_, ?_⟩
      · unfold approveOrRejectReschedule
        rw [hfind]
        simp [hbeq, havail]
      · intro h
        simp at h
      · intro _
        unfold approveOrRejectReschedule
        rw [hfind]
        simp [hbeq, havail]
    | true =>
      refine ⟨?_, ?_, ?_⟩
      · unfold approveOrRejectReschedule
        rw [hfind]
        simp [hbeq, havail]
      · intro _
        unfold approveOrRejectReschedule
        rw [hfind]
        simp [hbeq, havail]
      · intro h
        simp at h
  · intro db request p hfind
    unfold approveOrRejectReschedule
    rw [hfind]
    simp

/-- Witness for C4: with a store holding one presentation at 600-660 and a
requested slot at 700-760 on another date, the approve action succeeds, the
presentation's slot fields are overwritten, and an explicit reject on the same
state rejects without touching the store. -/
theorem c4_witness :
    ((approveOrRejectReschedule [⟨7, 3, "SE", ⟨600, 660⟩, 60, 5, [1], [2]⟩]
        ⟨0, 7, ⟨4, ⟨700, 760⟩, 9⟩, "move", "Pending"⟩ "Approve").request.status = "Approved" ↔
      isTimeSlotAvailable [⟨7, 3, "SE", ⟨600, 660⟩, 60, 5, [1], [2]⟩] 4 700 760
        [1] (some 9) [2] = true) ∧
    (approveOrRejectReschedule [⟨7, 3, "SE", ⟨600, 660⟩, 60, 5, [1], [2]⟩]
        ⟨0, 7, ⟨4, ⟨700, 760⟩, 9⟩, "move", "Pending"⟩ "Reject").request.status = "Rejected" := by
  constructor
  · have h := (c4_approve_transition.1 [⟨7, 3, "SE", ⟨600, 660⟩, 60, 5, [1], [2]⟩]
      ⟨0, 7, ⟨4, ⟨700, 760⟩, 9⟩, "move", "Pending"⟩ "Approve"
      ⟨7, 3, "SE", ⟨600, 660⟩, 60, 5, [1], [2]⟩ (by decide) (by decide)).1
    simpa using h
  · exact (c4_approve_transition.2 [⟨7, 3, "SE", ⟨600, 660⟩, 60, 5, [1], [2]⟩]
      ⟨0, 7, ⟨4, ⟨700, 760⟩, 9⟩, "move", "Pending"⟩
      ⟨7, 3, "SE", ⟨600, 660⟩, 60, 5, [1], [2]⟩ (by decide)).1

/-- A timetable lecture entry (timetable.controller.js lecture schema):
start/end times (minutes, "HH:MM" in the code), module code, lecturer id and
venue id (friendly codes). -/
structure Lecture where
  start_time : Nat
  end_time : Nat
  module_code : String
  lecturer_id : String
  venue_id : String
deriving DecidableEq, Repr

/-- One day of a submitted weekly schedule. -/
structure DaySchedule where
  day : String
  lectures : List Lecture
deriving DecidableEq, Repr

/-- A stored Timetable document: group reference plus weekly schedule. -/
structure Timetable where
  tid : Nat
  group_id : String
  schedule : List DaySchedule
deriving DecidableEq, Repr

/-- The reference data and timetable store `addTimetable` queries: existing
group ids, module codes, lecturer (examiner) ids, venue ids, timetables. -/
structure TimetableEnv where
  groups : List String
  modules : List String
  lecturers : List String
  venueIds : List String
  timetables : List Timetable
deriving DecidableEq, Repr

/-- Allowed weekdays (timetable.controller.js `DAYS`). -/
def DAYS : List String := ["Monday", "Tuesday", "Wednesday", "Thursday", "Friday"]

/-- Joi lecture schema: HH:MM times (here: < 1440 minutes) and bounded
non-empty code strings. -/
def validLecture (l : Lecture) : Bool :=
  decide (l.start_time < 1440) && decide (l.end_time < 1440) &&
    decide (1 ≤ l.module_code.length) && decide (l.module_code.length ≤ 32) &&
    decide (1 ≤ l.lecturer_id.length) && decide (l.lecturer_id.length ≤ 64) &&
    decide (1 ≤ l.venue_id.length) && decide (l.venue_id.length ≤ 64)

/-- Joi body schema for `addTimetable`: non-empty group id, non-empty schedule
whose days are weekdays with at least one valid lecture each. -/
def validBody (group_id : String) (schedule : List DaySchedule) : Bool :=
  decide (1 ≤ group_id.length) && decide (group_id.length ≤ 64) &&
    decide (1 ≤ schedule.length) &&
    schedule.all (fun d => DAYS.contains d.day && decide (1 ≤ d.lectures.length) &&
      d.lectures.all validLecture)

/-- Comparison used to sort a day's lectures:
`sort((a, b) => a.start_time.localeCompare(b.start_time))`, ascending by
start time. -/
def lectureLE (a b : Lecture) : Prop :=
  a.start_time ≤ b.start_time

instance : DecidableRel lectureLE :=
  fun a b => inferInstanceAs (Decidable (a.start_time ≤ b.start_time))

instance : IsTotal Lecture lectureLE :=
  ⟨fun a b => Nat.le_total a.start_time b.start_time⟩

instance : IsTrans Lecture lectureLE :=
  ⟨fun _ _ _ hab hbc => Nat.le_trans hab hbc⟩

/-- The stable ascending-by-start-time sort of a day's lecture list
(JavaScript's `Array.prototype.sort` is stable; insertion sort is a stable
sort, so it computes the same list). -/
def sortLectures (ls : List Lecture) : List Lecture :=
  ls.insertionSort lectureLE

/-- The duplicate-detection key
`` `${day}-${start}-${end}-${lecturer}-${venue}` ``, embedded as a tuple of
its components. -/
structure LectureKey where
  day : String
  start_time : Nat
  end_time : Nat
  lecturer_id : String
  venue_id : String
deriving DecidableEq, Repr

/-- Key of one lecture inside a given day. -/
def lectureKey (day : String) (l : Lecture) : LectureKey :=
  ⟨day, l.start_time, l.end_time, l.lecturer_id, l.venue_id⟩

/-- The cross-timetable conflict query
(`Timetable.findOne({ "schedule.day": day, "schedule.lectures": { $elemMatch:
{...} }, group_id: { $ne: group_id } })`, timetable.controller.js lines
142-152).  MongoDB evaluates the two array conditions independently on the
document, so the day condition and the overlapping-lecture condition need not
hold for the same schedule element; the embedding preserves that. -/
def conflictQueryMatch (day : String) (lec : Lecture) (group_id : String)
    (t : Timetable) : Bool :=
  t.schedule.any (fun d => d.day == day) &&
    t.schedule.any (fun d => d.lectures.any (fun l =>
      (l.venue_id == lec.venue_id || l.lecturer_id == lec.lecturer_id) &&
        decide (l.start_time < lec.end_time) && decide (l.end_time > lec.start_time))) &&
    (t.group_id != group_id)

/-- One execution of the cross-timetable conflict query. -/
def runConflictQuery (tts : List Timetable) (day : String) (lec : Lecture)
    (group_id : String) : Option Timetable :=
  tts.find? (conflictQueryMatch day lec group_id)

/-- `prevLecture.end_time > lecture.start_time` guarded by `i > 0`
(no previous lecture on the first iteration). -/
def overlapPrev (prev : Option Lecture) (lec : Lecture) : Bool :=
  match prev with
  | some pl => decide (lec.start_time < pl.end_time)
  | none => false

/-- End time of the previous lecture (only read when one exists). -/
def prevEndValue (prev : Option Lecture) : Nat :=
  match prev with
  | some pl => pl.end_time
  | none => 0

/-- Outcome tag of `addTimetable`; every constructor except `created` is an
HTTP 400 response carrying the data interpolated into the error message. -/
inductive TTResult where
  | invalidGroup
  | duplicateLecture (l : Lecture)
  | invalidModule (code : String)
  | invalidLecturer (code : String)
  | invalidVenue (code : String)
  | timeConflict (nextStart prevEnd : Nat)
  | bookingConflict (venueId lecturerId : String)
  | validationFailed
  | created
deriving DecidableEq, Repr

/-- Result of scanning lectures: first failure (with the number of conflict
queries executed so far) or success carrying the accumulated duplicate-key set
and query count. -/
inductive ScanRes where
  | failed (r : TTResult) (queries : Nat)
  | passed (seen : List LectureKey) (queries : Nat)
deriving DecidableEq, Repr

/-- Per-lecture loop body of `addTimetable` (lines 103-159), run over one
day's lectures sorted by start time.  In order: duplicate-key check (the key
is added to the set before the reference checks, which is unobservable since
any later failure returns immediately), module/lecturer/venue reference
checks, adjacent-overlap check against the previous sorted lecture, then the
cross-timetable conflict query (counted in `queries`). -/
def scanLectures (env : TimetableEnv) (group_id day : String) :
    Option Lecture → List LectureKey → Nat → List Lecture → ScanRes
  | _, seen, q, [] => .passed seen q
  | prev, seen, q, lec :: rest =>
    let key := lectureKey day lec
    if seen.contains key then
      .failed (.duplicateLecture lec) q
    else if !(env.modules.contains lec.module_code) then
      .failed (.invalidModule lec.module_code) q
    else if !(env.lecturers.contains lec.lecturer_id) then
      .failed (.invalidLecturer lec.lecturer_id) q
    else if !(env.venueIds.contains lec.venue_id) then
      .failed (.invalidVenue lec.venue_id) q
    else if overlapPrev prev lec then
      .failed (.timeConflict lec.start_time (prevEndValue prev)) q
    else if (runConflictQuery env.timetables day lec group_id).isSome then
      .failed (.bookingConflict lec.venue_id lec.lecturer_id) (q + 1)
    else
      scanLectures env group_id day (some lec) (key :: seen) (q + 1) rest

/-- The outer per-day loop of `addTimetable` (line 100): the duplicate-key set
and query count persist across days; the previous-lecture pointer resets. -/
def scanDays (env : TimetableEnv) (group_id : String) :
    List LectureKey → Nat → List DaySchedule → ScanRes
  | seen, q, [] => .passed seen q
  | seen, q, d :: ds =>
    match scanLectures env group_id d.day none seen q (sortLectures d.lectures) with
    | .failed r q2 => .failed r q2
    | .passed seen2 q2 => scanDays env group_id seen2 q2 ds

/-- Full outcome of `addTimetable`: the response tag, the number of
cross-timetable conflict queries executed, and the resulting timetable store
(unchanged unless `created`). -/
structure AddOutcome where
  result : TTResult
  conflictQueries : Nat
  timetables : List Timetable
deriving DecidableEq, Repr

/-- `addTimetable` (timetable.controller.js lines 62-170): Joi validation,
group-existence check, the per-day/per-lecture scan, and on success the save
of the new timetable document.  The unused `existingLectures` prefetch
(lines 80-95) has no observable effect and is not modelled. -/
def addTimetable (env : TimetableEnv) (group_id : String)
    (schedule : List DaySchedule) : AddOutcome :=
  if !(validBody group_id schedule) then
    ⟨.validationFailed, 0, env.timetables⟩
  else if !(env.groups.contains group_id) then
    ⟨.invalidGroup, 0, env.timetables⟩
  else
    match scanDays env group_id [] 0 schedule with
    | .failed r q => ⟨r, q, env.timetables⟩
    | .passed _ q => ⟨.created, q, env.timetables ++ [⟨env.timetables.length, group_id, schedule⟩]⟩

/-- All duplicate-detection keys of a submission, in submission order. -/
def submissionKeys (schedule : List DaySchedule) : List LectureKey :=
  schedule.flatMap (fun d => d.lectures.map (lectureKey d.day))

/-- Total number of lectures in a submission. -/
def totalLectures (schedule : List DaySchedule) : Nat :=
  (schedule.map (fun d => d.lectures.length)).sum

theorem scanLectures_nil (env : TimetableEnv) (gid day : String) (prev : Option Lecture)
    (seen : List LectureKey) (q : Nat) :
    scanLectures env gid day prev seen q [] = .passed seen q := rfl

theorem scanLectures_cons (env : TimetableEnv) (gid day : String) (prev : Option Lecture)
    (seen : List LectureKey) (q : Nat) (lec : Lecture) (rest : List Lecture) :
    scanLectures env gid day prev seen q (lec :: rest) =
      (if seen.contains (lectureKey day lec) then
        .failed (.duplicateLecture lec) q
      else if !(env.modules.contains lec.module_code) then
        .failed (.invalidModule lec.module_code) q
      else if !(env.lecturers.contains lec.lecturer_id) then
        .failed (.invalidLecturer lec.lecturer_id) q
      else if !(env.venueIds.contains lec.venue_id) then
        .failed (.invalidVenue lec.venue_id) q
      else if overlapPrev prev lec then
        .failed (.timeConflict lec.start_time (prevEndValue prev)) q
      else if (runConflictQuery env.timetables day lec gid).isSome then
        .failed (.bookingConflict lec.venue_id lec.lecturer_id) (q + 1)
      else
        scanLectures env gid day (some lec) (lectureKey day lec :: seen) (q + 1) rest) := rfl

theorem scanLectures_passed_spec (env : TimetableEnv) (gid day : String) :
    ∀ (ls : List Lecture) (prev : Option Lecture) (seen : List LectureKey) (q : Nat)
      (seen2 : List LectureKey) (q2 : Nat),
      scanLectures env gid day prev seen q ls = .passed seen2 q2 →
      ((ls.map (lectureKey day)).Nodup ∧
        (∀ k ∈ ls.map (lectureKey day), k ∉ seen) ∧
        seen2 = (ls.map (lectureKey day)).reverse ++ seen ∧
        q2 = q + ls.length) := by
  intro ls
  induction ls with
  | nil =>
    intro prev seen q seen2 q2 h
    rw [scanLectures_nil] at h
    cases h
    simp
  | cons lec rest ih =>
    intro prev seen q seen2 q2 h
    rw [scanLectures_cons] at h
    split_ifs at h with h1 h2 h3 h4 h5 h6 <;> try cases h
    · have hkey : lectureKey day lec ∉ seen := by
        intro hmem
        exact h1 (by simpa using hmem)
      have hmain : scanLectures env gid day (some lec) (lectureKey day lec :: seen) (q + 1)
          rest = .passed seen2 q2 := by
        first
        | exact h
        | exact h.symm
      obtain ⟨hnd, hfresh, hseen, hq⟩ :=
        ih (some lec) (lectureKey day lec :: seen) (q + 1) seen2 q2 hmain
      refine ⟨?_, ?_, ?_, ?_⟩
      · simp only [List.map_cons, List.nodup_cons]
        exact ⟨fun hmem => (hfresh _ hmem (List.mem_cons_self _ _)).elim, hnd⟩
      · intro k hk
        rcases List.mem_cons.mp hk with rfl | hk2
        · exact hkey
        · intro hks
          exact hfresh k hk2 (List.mem_cons_of_mem _ hks)
      · rw [hseen]
        simp
      · rw [hq]
        simp only [List.length_cons]
        omega

theorem scanLectures_passed_chain (env : TimetableEnv) (gid day : String) :
    ∀ (ls : List Lecture) (prev : Option Lecture) (seen : List LectureKey) (q : Nat)
      (seen2 : List LectureKey) (q2 : Nat),
      scanLectures env gid day prev seen q ls = .passed seen2 q2 →
      List.Chain' (fun a b => a.end_time ≤ b.start_time) (prev.toList ++ ls) := by
  intro ls
  induction ls with
  | nil =>
    intro prev seen q seen2 q2 _
    cases prev <;> simp
  | cons lec rest ih =>
    intro prev seen q seen2 q2 h
    rw [scanLectures_cons] at h
    split_ifs at h with h1 h2 h3 h4 h5 h6 <;> try cases h
    · have hmain : scanLectures env gid day (some lec) (lectureKey day lec :: seen) (q + 1)
          rest = .passed seen2 q2 := by
        first
        | exact h
        | exact h.symm
      have hch := ih (some lec) (lectureKey day lec :: seen) (q + 1) seen2 q2 hmain
      cases prev with
      | none => simpa using hch
      | some pl =>
        have hle : pl.end_time ≤ lec.start_time := by
          simp [overlapPrev] at h5
          omega
        have hch2 : List.Chain' (fun a b => a.end_time ≤ b.start_time) (lec :: rest) := by
          simpa using hch
        have heq : (some pl).toList ++ lec :: rest = pl :: lec :: rest := by simp
        rw [heq]
        exact List.chain'_cons.mpr ⟨hle, hch2⟩

theorem scanLectures_timeConflict_spec (env : TimetableEnv) (gid day : String) :
    ∀ (ls : List Lecture) (prev : Option Lecture) (seen : List LectureKey) (q : Nat)
      (s e q2 : Nat),
      scanLectures env gid day prev seen q ls = .failed (.timeConflict s e) q2 →
      ∃ l1 p n l2, prev.toList ++ ls = l1 ++ p :: n :: l2 ∧
        e = p.end_time ∧ s = n.start_time ∧ n.start_time < p.end_time := by
  intro ls
  induction ls with
  | nil =>
    intro prev seen q s e q2 h
    rw [scanLectures_nil] at h
    cases h
  | cons lec rest ih =>
    intro prev seen q s e q2 h
    rw [scanLectures_cons] at h
    split_ifs at h with h1 h2 h3 h4 h5 h6 <;> try cases h
    · cases prev with
      | none => simp [overlapPrev] at h5
      | some pl =>
        refine ⟨[], pl, lec, rest, by simp, rfl, rfl, ?_⟩
        simpa [overlapPrev] using h5
    · have hmain : scanLectures env gid day (some lec) (lectureKey day lec :: seen) (q + 1)
          rest = .failed (.timeConflict s e) q2 := by
        first
        | exact h
        | exact h.symm
      obtain ⟨l1, p, n, l2, heq, he, hs, hlt⟩ :=
        ih (some lec) (lectureKey day lec :: seen) (q + 1) s e q2 hmain
      simp only [Option.toList_some, List.singleton_append] at heq
      refine ⟨prev.toList ++ l1, p, n, l2, ?_, he, hs, hlt⟩
      rw [List.append_assoc]
      rw [← heq]

theorem scanLectures_dup_queries (env : TimetableEnv) (gid day : String) :
    ∀ (ls : List Lecture) (prev : Option Lecture) (seen : List LectureKey) (q : Nat)
      (l : Lecture) (q2 : Nat),
      scanLectures env gid day prev seen q ls = .failed (.duplicateLecture l) q2 →
      q ≤ q2 ∧ q2 < q + ls.length := by
  intro ls
  induction ls with
  | nil =>
    intro prev seen q l q2 h
    rw [scanLectures_nil] at h
    cases h
  | cons lec rest ih =>
    intro prev seen q l q2 h
    rw [scanLectures_cons] at h
    split_ifs at h with h1 h2 h3 h4 h5 h6 <;> try cases h
    · simp only [List.length_cons]
      omega
    · have hmain : scanLectures env gid day (some lec) (lectureKey day lec :: seen) (q + 1)
          rest = .failed (.duplicateLecture l) q2 := by
        first
        | exact h
        | exact h.symm
      have := ih (some lec) (lectureKey day lec :: seen) (q + 1) l q2 hmain
      simp only [List.length_cons]
      omega

theorem scanDays_nil (env : TimetableEnv) (gid : String) (seen : List LectureKey) (q : Nat) :
    scanDays env gid seen q [] = .passed seen q := rfl

theorem scanDays_cons (env : TimetableEnv) (gid : String) (seen : List LectureKey) (q : Nat)
    (d : DaySchedule) (ds : List DaySchedule) :
    scanDays env gid seen q (d :: ds) =
      (match scanLectures env gid d.day none seen q (sortLectures d.lectures) with
      | .failed r q2 => .failed r q2
      | .passed seen2 q2 => scanDays env gid seen2 q2 ds) := rfl

/-- Duplicate-detection keys of a submission in the order the scan visits
them (each day's lectures sorted by start time). -/
def sortedKeys (ds : List DaySchedule) : List LectureKey :=
  ds.flatMap (fun d => (sortLectures d.lectures).map (lectureKey d.day))

theorem sortedKeys_perm (ds : List DaySchedule) :
    (sortedKeys ds).Perm (submissionKeys ds) := by
  induction ds with
  | nil => simp [sortedKeys, submissionKeys]
  | cons d ds ih =>
    simp only [sortedKeys, submissionKeys, List.flatMap_cons] at ih ⊢
    exact List.Perm.append ((List.perm_insertionSort lectureLE d.lectures).map _) ih

theorem sortLectures_length (ls : List Lecture) :
    (sortLectures ls).length = ls.length :=
  (List.perm_insertionSort lectureLE ls).length_eq

theorem sortedLectures_length_sum (ds : List DaySchedule) :
    (ds.map (fun d => (sortLectures d.lectures).length)).sum = totalLectures ds := by
  induction ds with
  | nil => simp [totalLectures]
  | cons d ds ih =>
    simp only [totalLectures, List.map_cons, List.sum_cons] at ih ⊢
    rw [sortLectures_length, ih]

theorem scanDays_passed_spec (env : TimetableEnv) (gid : String) :
    ∀ (ds : List DaySchedule) (seen : List LectureKey) (q : Nat)
      (seen2 : List LectureKey) (q2 : Nat),
      scanDays env gid seen q ds = .passed seen2 q2 →
      ((sortedKeys ds).Nodup ∧
        (∀ k ∈ sortedKeys ds, k ∉ seen) ∧
        (∀ d ∈ ds, List.Chain' (fun a b => a.end_time ≤ b.start_time) (sortLectures d.lectures)) ∧
        q2 = q + (ds.map (fun d => (sortLectures d.lectures).length)).sum) := by
  intro ds
  induction ds with
  | nil =>
    intro seen q seen2 q2 h
    rw [scanDays_nil] at h
    cases h
    simp [sortedKeys]
  | cons d ds ih =>
    intro seen q seen2 q2 h
    rw [scanDays_cons] at h
    cases hscan : scanLectures env gid d.day none seen q (sortLectures d.lectures) with
    | failed r qx =>
      rw [hscan] at h
      cases h
    | passed seenx qx =>
      rw [hscan] at h
      obtain ⟨hdnd, hdfresh, hdseen, hdq⟩ :=
        scanLectures_passed_spec env gid d.day (sortLectures d.lectures) none seen q seenx qx hscan
      obtain ⟨hrnd, hrfresh, hrch, hrq⟩ := ih seenx qx seen2 q2 h
      have hkeyseq : sortedKeys (d :: ds) =
          (sortLectures d.lectures).map (lectureKey d.day) ++ sortedKeys ds := by
        simp [sortedKeys]
      refine ⟨?_, ?_, ?_, ?_⟩
      · rw [hkeyseq, List.nodup_append]
        refine ⟨hdnd, hrnd, ?_⟩
        intro k hk1 hk2
        have := hrfresh k hk2
        rw [hdseen] at this
        exact this (List.mem_append_left _ (List.mem_reverse.mpr hk1))
      · intro k hk
        rw [hkeyseq] at hk
        rcases List.mem_append.mp hk with hk1 | hk2
        · exact hdfresh k hk1
        · have := hrfresh k hk2
          rw [hdseen] at this
          intro hks
          exact this (List.mem_append_right _ hks)
      · intro dd hdd
        rcases List.mem_cons.mp hdd with rfl | hdd2
        · have := scanLectures_passed_chain env gid dd.day (sortLectures dd.lectures)
            none seen q seenx qx hscan
          simpa using this
        · exact hrch dd hdd2
      · rw [hrq, hdq]
        simp only [List.map_cons, List.sum_cons]
        omega

theorem scanDays_timeConflict_spec (env : TimetableEnv) (gid : String) :
    ∀ (ds : List DaySchedule) (seen : List LectureKey) (q : Nat) (s e q2 : Nat),
      scanDays env gid seen q ds = .failed (.timeConflict s e) q2 →
      ∃ d ∈ ds, ∃ l1 p n l2, sortLectures d.lectures = l1 ++ p :: n :: l2 ∧
        e = p.end_time ∧ s = n.start_time ∧ n.start_time < p.end_time := by
  intro ds
  induction ds with
  | nil =>
    intro seen q s e q2 h
    rw [scanDays_nil] at h
    cases h
  | cons d ds ih =>
    intro seen q s e q2 h
    rw [scanDays_cons] at h
    cases hscan : scanLectures env gid d.day none seen q (sortLectures d.lectures) with
    | failed r qx =>
      rw [hscan] at h
      cases h
      obtain ⟨l1, p, n, l2, heq, he, hs, hlt⟩ :=
        scanLectures_timeConflict_spec env gid d.day (sortLectures d.lectures)
          none seen q s e q2 hscan
      refine ⟨d, List.mem_cons_self _ _, l1, p, n, l2, ?_, he, hs, hlt⟩
      simpa using heq
    | passed seenx qx =>
      rw [hscan] at h
      obtain ⟨dd, hdd, rest⟩ := ih seenx qx s e q2 h
      exact ⟨dd, List.mem_cons_of_mem _ hdd, rest⟩

theorem scanDays_dup_queries (env : TimetableEnv) (gid : String) :
    ∀ (ds : List DaySchedule) (seen : List LectureKey) (q : Nat) (l : Lecture) (q2 : Nat),
      scanDays env gid seen q ds = .failed (.duplicateLecture l) q2 →
      q ≤ q2 ∧ q2 < q + totalLectures ds := by
  intro ds
  induction ds with
  | nil =>
    intro seen q l q2 h
    rw [scanDays_nil] at h
    cases h
  | cons d ds ih =>
    intro seen q l q2 h
    rw [scanDays_cons] at h
    cases hscan : scanLectures env gid d.day none seen q (sortLectures d.lectures) with
    | failed r qx =>
      rw [hscan] at h
      cases h
      have hb := scanLectures_dup_queries env gid d.day (sortLectures d.lectures)
        none seen q l q2 hscan
      have hlen : (sortLectures d.lectures).length = d.lectures.length :=
        (List.perm_insertionSort lectureLE d.lectures).length_eq
      simp only [totalLectures, List.map_cons, List.sum_cons]
      omega
    | passed seenx qx =>
      rw [hscan] at h
      obtain ⟨_, _, _, hdq⟩ :=
        scanLectures_passed_spec env gid d.day (sortLectures d.lectures) none seen q seenx qx hscan
      have hb := ih seenx qx l q2 h
      have hlen : (sortLectures d.lectures).length = d.lectures.length :=
        (List.perm_insertionSort lectureLE d.lectures).length_eq
      simp only [totalLectures, List.map_cons, List.sum_cons] at hb ⊢
      omega

theorem scanLectures_failed_reason (env : TimetableEnv) (gid day : String) :
    ∀ (ls : List Lecture) (prev : Option Lecture) (seen : List LectureKey) (q : Nat)
      (r : TTResult) (q2 : Nat),
      scanLectures env gid day prev seen q ls = .failed r q2 → r ≠ .created := by
  intro ls
  induction ls with
  | nil =>
    intro prev seen q r q2 h
    rw [scanLectures_nil] at h
    cases h
  | cons lec rest ih =>
    intro prev seen q r q2 h
    rw [scanLectures_cons] at h
    split_ifs at h with h1 h2 h3 h4 h5 h6 <;> try cases h
    · simp
    · simp
    · simp
    · simp
    · simp
    · simp
    · have hmain : scanLectures env gid day (some lec) (lectureKey day lec :: seen) (q + 1)
          rest = .failed r q2 := by
        first
        | exact h
        | exact h.symm
      exact ih (some lec) (lectureKey day lec :: seen) (q + 1) r q2 hmain

theorem scanDays_failed_reason (env : TimetableEnv) (gid : String) :
    ∀ (ds : List DaySchedule) (seen : List LectureKey) (q : Nat) (r : TTResult) (q2 : Nat),
      scanDays env gid seen q ds = .failed r q2 → r ≠ .created := by
  intro ds
  induction ds with
  | nil =>
    intro seen q r q2 h
    rw [scanDays_nil] at h
    cases h
  | cons d ds ih =>
    intro seen q r q2 h
    rw [scanDays_cons] at h
    cases hscan : scanLectures env gid d.day none seen q (sortLectures d.lectures) with
    | failed rx qx =>
      rw [hscan] at h
      cases h
      exact scanLectures_failed_reason env gid d.day (sortLectures d.lectures)
        none seen q r q2 hscan
    | passed seenx qx =>
      rw [hscan] at h
      exact ih seenx qx r q2 h

theorem addTimetable_eq (env : TimetableEnv) (gid : String) (sched : List DaySchedule) :
    (validBody gid sched = false ∧
      addTimetable env gid sched = ⟨.validationFailed, 0, env.timetables⟩) ∨
    (env.groups.contains gid = false ∧
      addTimetable env gid sched = ⟨.invalidGroup, 0, env.timetables⟩) ∨
    (∃ r q, scanDays env gid [] 0 sched = .failed r q ∧
      addTimetable env gid sched = ⟨r, q, env.timetables⟩) ∨
    (∃ seen q, scanDays env gid [] 0 sched = .passed seen q ∧
      addTimetable env gid sched =
        ⟨.created, q, env.timetables ++ [⟨env.timetables.length, gid, sched⟩]⟩) := by
  unfold addTimetable
  split_ifs with hv hg
  · exact Or.inl ⟨by simpa using hv, rfl⟩
  · exact Or.inr (Or.inl ⟨by simpa using hg, rfl⟩)
  · cases hscan : scanDays env gid [] 0 sched with
    | failed r q => exact Or.inr (Or.inr (Or.inl ⟨r, q, rfl, rfl⟩))
    | passed seen q => exact Or.inr (Or.inr (Or.inr ⟨seen, q, rfl, rfl⟩))

theorem addTimetable_created_chain (env : TimetableEnv) (gid : String)
    (sched : List DaySchedule) (hres : (addTimetable env gid sched).result = .created) :
    ∀ d ∈ sched, List.Chain' (fun a b => a.end_time ≤ b.start_time) (sortLectures d.lectures) := by
  rcases addTimetable_eq env gid sched with ⟨hv, heq⟩ | ⟨hg, heq⟩ | ⟨r, q, hscan, heq⟩ |
    ⟨seen, q, hscan, heq⟩
  · rw [heq] at hres
    simp at hres
  · rw [heq] at hres
    simp at hres
  · rw [heq] at hres
    simp only at hres
    exact absurd hres (scanDays_failed_reason env gid sched [] 0 r q hscan)
  · exact (scanDays_passed_spec env gid sched [] 0 seen q hscan).2.2.1

theorem addTimetable_created_nodup (env : TimetableEnv) (gid : String)
    (sched : List DaySchedule) (hres : (addTimetable env gid sched).result = .created) :
    (submissionKeys sched).Nodup := by
  rcases addTimetable_eq env gid sched with ⟨hv, heq⟩ | ⟨hg, heq⟩ | ⟨r, q, hscan, heq⟩ |
    ⟨seen, q, hscan, heq⟩
  · rw [heq] at hres
    simp at hres
  · rw [heq] at hres
    simp at hres
  · rw [heq] at hres
    simp only at hres
    exact absurd hres (scanDays_failed_reason env gid sched [] 0 r q hscan)
  · exact ((sortedKeys_perm sched).nodup_iff).mp
      (scanDays_passed_spec env gid sched [] 0 seen q hscan).1

theorem addTimetable_ne_created_unchanged (env : TimetableEnv) (gid : String)
    (sched : List DaySchedule) (hres : (addTimetable env gid sched).result ≠ .created) :
    (addTimetable env gid sched).timetables = env.timetables := by
  rcases addTimetable_eq env gid sched with ⟨hv, heq⟩ | ⟨hg, heq⟩ | ⟨r, q, hscan, heq⟩ |
    ⟨seen, q, hscan, heq⟩
  · rw [heq]
  · rw [heq]
  · rw [heq]
  · rw [heq] at hres
    simp at hres

/-- Claim C5 counterexample: a submission whose single day repeats one lecture
verbatim is rejected as a duplicate, but the cross-timetable conflict query
for the first copy of the lecture has already executed at that point, so the
rejection does not happen before any database conflict query runs. -/
theorem c5_counterexample :
    (addTimetable ⟨["GR1"], ["M1"], ["L1"], ["V1"], []⟩ "GR1"
        [⟨"Monday", [⟨540, 600, "M1", "L1", "V1"⟩, ⟨540, 600, "M1", "L1", "V1"⟩]⟩]).result =
      .duplicateLecture ⟨540, 600, "M1", "L1", "V1"⟩ ∧
    (addTimetable ⟨["GR1"], ["M1"], ["L1"], ["V1"], []⟩ "GR1"
        [⟨"Monday", [⟨540, 600, "M1", "L1", "V1"⟩, ⟨540, 600, "M1", "L1", "V1"⟩]⟩]).conflictQueries
      ≠ 0 := by
  constructor
  · decide
  · decide

/-- Claim C5 (amended): a submission containing two lectures with identical
day, start, end, lecturer and venue is never persisted; when the scan reports
the duplicate (HTTP 400 identifying the duplicate lecture), the duplicate
lecture's own conflict query has not run — the number of conflict queries
executed is strictly below the number of submitted lectures — although
conflict queries for lectures processed earlier have already run. -/
theorem c5_duplicate_never_persisted :
    (∀ (env : TimetableEnv) (gid : String) (sched : List DaySchedule),
        ¬ (submissionKeys sched).Nodup →
        (addTimetable env gid sched).result ≠ .created ∧
        (addTimetable env gid sched).timetables = env.timetables) ∧
    (∀ (env : TimetableEnv) (gid : String) (sched : List DaySchedule) (l : Lecture),
        (addTimetable env gid sched).result = .duplicateLecture l →
        ((addTimetable env gid sched).conflictQueries < totalLectures sched ∧
          (addTimetable env gid sched).timetables = env.timetables)) := by
  constructor
  · intro env gid sched hdup
    have hne : (addTimetable env gid sched).result ≠ .created := by
      intro hres
      exact hdup (addTimetable_created_nodup env gid sched hres)
    exact ⟨hne, addTimetable_ne_created_unchanged env gid sched hne⟩
  · intro env gid sched l hres
    rcases addTimetable_eq env gid sched with ⟨hv, heq⟩ | ⟨hg, heq⟩ | ⟨r, q, hscan, heq⟩ |
      ⟨seen, q, hscan, heq⟩
    · rw [heq] at hres
      simp at hres
    · rw [heq] at hres
      simp at hres
    · rw [heq] at hres ⊢
      simp only at hres
      subst hres
      have := scanDays_dup_queries env gid sched [] 0 l q hscan
      exact ⟨by simp only; omega, rfl⟩
    · rw [heq] at hres
      simp at hres

/-- Witness for the amended C5 at a concrete input: the duplicate submission
from the counterexample is not persisted, and its query count (1) stays below
the number of submitted lectures (2). -/
theorem c5_witness :
    (addTimetable ⟨["GR1"], ["M1"], ["L1"], ["V1"], []⟩ "GR1"
        [⟨"Monday", [⟨540, 600, "M1", "L1", "V1"⟩, ⟨540, 600, "M1", "L1", "V1"⟩]⟩]).result ≠
      .created ∧
    (addTimetable ⟨["GR1"], ["M1"], ["L1"], ["V1"], []⟩ "GR1"
        [⟨"Monday", [⟨540, 600, "M1", "L1", "V1"⟩, ⟨540, 600, "M1", "L1", "V1"⟩]⟩]).timetables =
      [] ∧
    (addTimetable ⟨["GR1"], ["M1"], ["L1"], ["V1"], []⟩ "GR1"
        [⟨"Monday", [⟨540, 600, "M1", "L1", "V1"⟩, ⟨540, 600, "M1", "L1", "V1"⟩]⟩]).conflictQueries <
      totalLectures [⟨"Monday", [⟨540, 600, "M1", "L1", "V1"⟩, ⟨540, 600, "M1", "L1", "V1"⟩]⟩] := by
  refine ⟨(c5_duplicate_never_persisted.1 ⟨["GR1"], ["M1"], ["L1"], ["V1"], []⟩ "GR1"
    [⟨"Monday", [⟨540, 600, "M1", "L1", "V1"⟩, ⟨540, 600, "M1", "L1", "V1"⟩]⟩] (by decide)).1,
    (c5_duplicate_never_persisted.1 ⟨["GR1"], ["M1"], ["L1"], ["V1"], []⟩ "GR1"
      [⟨"Monday", [⟨540, 600, "M1", "L1", "V1"⟩, ⟨540, 600, "M1", "L1", "V1"⟩]⟩] (by decide)).2,
    (c5_duplicate_never_persisted.2 ⟨["GR1"], ["M1"], ["L1"], ["V1"], []⟩ "GR1"
      [⟨"Monday", [⟨540, 600, "M1", "L1", "V1"⟩, ⟨540, 600, "M1", "L1", "V1"⟩]⟩]
      ⟨540, 600, "M1", "L1", "V1"⟩ (by decide)).1⟩

/-- Claim C6: a created submission has, for every submitted day, its
start-time-sorted lectures pairwise non-overlapping (previous end ≤ next
start); a day with an overlapping adjacent pair is never persisted; and a
time-conflict rejection reports exactly the colliding next-start and
previous-end values of an adjacent pair in some day's sorted lecture list. -/
theorem c6_adjacent_overlap_rejection :
    (∀ (env : TimetableEnv) (gid : String) (sched : List DaySchedule),
        (addTimetable env gid sched).result = .created →
        ∀ d ∈ sched, List.Chain' (fun a b => a.end_time ≤ b.start_time)
          (sortLectures d.lectures)) ∧
    (∀ (env : TimetableEnv) (gid : String) (sched : List DaySchedule),
        (∃ d ∈ sched, ¬ List.Chain' (fun a b => a.end_time ≤ b.start_time)
          (sortLectures d.lectures)) →
        (addTimetable env gid sched).result ≠ .created ∧
        (addTimetable env gid sched).timetables = env.timetables) ∧
    (∀ (env : TimetableEnv) (gid : String) (sched : List DaySchedule) (s e : Nat),
        (addTimetable env gid sched).result = .timeConflict s e →
        ((addTimetable env gid sched).timetables = env.timetables ∧ s < e ∧
          ∃ d ∈ sched, ∃ l1 p n l2, sortLectures d.lectures = l1 ++ p :: n :: l2 ∧
            p.end_time = e ∧ n.start_time = s ∧ n.start_time < p.end_time)) := by
  refine ⟨addTimetable_created_chain, ?_, ?_⟩
  · intro env gid sched hex
    obtain ⟨d, hd, hnc⟩ := hex
    have hne : (addTimetable env gid sched).result ≠ .created := by
      intro hres
      exact hnc (addTimetable_created_chain env gid sched hres d hd)
    exact ⟨hne, addTimetable_ne_created_unchanged env gid sched hne⟩
  · intro env gid sched s e hres
    rcases addTimetable_eq env gid sched with ⟨hv, heq⟩ | ⟨hg, heq⟩ | ⟨r, q, hscan, heq⟩ |
      ⟨seen, q, hscan, heq⟩
    · rw [heq] at hres
      simp at hres
    · rw [heq] at hres
      simp at hres
    · rw [heq] at hres ⊢
      simp only at hres
      subst hres
      obtain ⟨d, hd, l1, p, n, l2, heq2, he, hs, hlt⟩ :=
        scanDays_timeConflict_spec env gid sched [] 0 s e q hscan
      exact ⟨rfl, by omega, d, hd, l1, p, n, l2, heq2, he.symm, hs.symm, hlt⟩
    · rw [heq] at hres
      simp at hres

/-- Witness for C6 at a concrete input: a Monday with lectures 09:00-11:00 and
10:00-12:00 (distinct lecturers and venues) is rejected with the colliding
next-start 10:00 (600) and previous-end 11:00 (660), and the store stays
empty. -/
theorem c6_witness :
    (addTimetable ⟨["GR1"], ["M1"], ["L1", "L2"], ["V1", "V2"], []⟩ "GR1"
        [⟨"Monday", [⟨540, 660, "M1", "L1", "V1"⟩, ⟨600, 720, "M1", "L2", "V2"⟩]⟩]).result =
      .timeConflict 600 660 ∧
    ((addTimetable ⟨["GR1"], ["M1"], ["L1", "L2"], ["V1", "V2"], []⟩ "GR1"
        [⟨"Monday", [⟨540, 660, "M1", "L1", "V1"⟩, ⟨600, 720, "M1", "L2", "V2"⟩]⟩]).timetables =
      [] ∧ 600 < 660 ∧
      ∃ d ∈ [(⟨"Monday", [⟨540, 660, "M1", "L1", "V1"⟩, ⟨600, 720, "M1", "L2", "V2"⟩]⟩ :
          DaySchedule)],
        ∃ l1 p n l2, sortLectures d.lectures = l1 ++ p :: n :: l2 ∧
          p.end_time = 660 ∧ n.start_time = 600 ∧ n.start_time < p.end_time) :=
  ⟨by decide,
    c6_adjacent_overlap_rejection.2.2 ⟨["GR1"], ["M1"], ["L1", "L2"], ["V1", "V2"], []⟩ "GR1"
      [⟨"Monday", [⟨540, 660, "M1", "L1", "V1"⟩, ⟨600, 720, "M1", "L2", "V2"⟩]⟩] 600 660
      (by decide)⟩

/-- A Student document: internal id, friendly code, department. -/
structure StudentRec where
  sid : Nat
  student_id : String
  department : String
deriving DecidableEq, Repr

/-- An Examiner document: internal id, friendly code, department. -/
structure ExaminerRec where
  eid : Nat
  examiner_id : String
  department : String
deriving DecidableEq, Repr

/-- A Venue document: internal id and friendly code. -/
structure VenueRec where
  vid : Nat
  venue_id : String
deriving DecidableEq, Repr

/-- The stores `smartSuggestSlot` reads, plus the current date (`new Date()`,
embedded as a day number). -/
structure SuggestEnv where
  today : Nat
  students : List StudentRec
  examiners : List ExaminerRec
  venues : List VenueRec
  timetables : List Timetable
  presentations : List Presentation
deriving DecidableEq, Repr

/-- Candidate dates of `smartSuggestSlot`: 14 consecutive days starting today
(`d.setDate(d.getDate() + i)` for i = 0..13). -/
def possibleDates (today : Nat) : List Nat :=
  (List.range 14).map (fun i => today + i)

/-- Candidate dates of `smartSuggestSlotForReschedule`: 14 consecutive days
starting tomorrow (`d.setDate(d.getDate() + i + 1)`). -/
def possibleDatesReschedule (today : Nat) : List Nat :=
  (List.range 14).map (fun i => today + i + 1)

/-- `Timetable.findOne({ "schedule.lectures.lecturer_id": code,
"schedule.day": { $exists: true } })`: first timetable mentioning the lecturer
code, with a non-empty schedule. -/
def lecturerTimetableLookup (tts : List Timetable) (lecturerCode : String) : Option Timetable :=
  tts.find? (fun t =>
    t.schedule.any (fun d => d.lectures.any (fun l => l.lecturer_id == lecturerCode)) &&
      decide (0 < t.schedule.length))

/-- The per-date load score: over the given lecturer codes, the sum of
`schedule.length` of each found timetable (the candidate date is not consulted
by the loop body, so the score is the same for every date). -/
def dateLectureScore (tts : List Timetable) (codes : List String) : Nat :=
  codes.foldl (fun acc c =>
    match lecturerTimetableLookup tts c with
    | some t => acc + t.schedule.length
    | none => acc) 0

/-- `totalLectures < minLectures` with `minLectures` starting at `Infinity`
(`none`). -/
def ltInfinity (x : Nat) : Option Nat → Bool
  | none => true
  | some m => decide (x < m)

/-- The `bestDate` selection loop: keep the first date whose score is strictly
below the running minimum. -/
def selectBestDateAux (score : Nat → Nat) : List Nat → Option Nat → Option Nat → Option Nat
  | [], best, _ => best
  | d :: ds, best, minL =>
    if ltInfinity (score d) minL then
      selectBestDateAux score ds (some d) (some (score d))
    else
      selectBestDateAux score ds best minL

/-- `bestDate` after iterating all candidate dates (starting from
`bestDate = null`, `minLectures = Infinity`). -/
def selectBestDate (score : Nat → Nat) (dates : List Nat) : Option Nat :=
  selectBestDateAux score dates none none

/-- The date-selection stage of `smartSuggestSlotForReschedule`
(presentation.controller.js lines 648-672): candidate dates start tomorrow,
and the lecturer lookup compares `lecturer_id` against the ObjectId rendered
as a string (`examiner.toString()`). -/
def rescheduleBestDate (env : SuggestEnv) (examinerIds : List Nat) : Option Nat :=
  selectBestDate
    (fun _ => dateLectureScore env.timetables (examinerIds.map (fun e => toString e)))
    (possibleDatesReschedule env.today)

/-- The fixed half-hour ladder of start times 08:00..16:30, in minutes. -/
def allTimeSlots : List Nat :=
  [480, 510, 540, 570, 600, 630, 660, 690, 720, 750, 780, 810, 840, 870, 900, 930, 960, 990]

/-- `calculateTimeRange`: end = start + duration, wrapped at midnight by the
`Date` arithmetic (`getHours`/`getMinutes`). -/
def calculateTimeRange (startTime duration : Nat) : TimeRange :=
  ⟨startTime, (startTime + duration) % 1440⟩

/-- JavaScript `Map.set`: overwrite in place when the key exists, else append. -/
def mapSet (m : List (Nat × Nat)) (k v : Nat) : List (Nat × Nat) :=
  if m.any (fun kv => kv.1 == k) then
    m.map (fun kv => if kv.1 == k then (k, v) else kv)
  else
    m ++ [(k, v)]

/-- JavaScript `Map.get` (None when absent). -/
def mapGet (m : List (Nat × Nat)) (k : Nat) : Option Nat :=
  (m.find? (fun kv => kv.1 == k)).map (fun kv => kv.2)

/-- JavaScript `Set.add`. -/
def setAdd (s : List Nat) (v : Nat) : List Nat :=
  if s.contains v then s else s ++ [v]

/-- The `examinerVenueMap` / `venueUsed` build over the chosen date's existing
presentations: for every presentation and each of its examiners, map the
examiner to the presentation's venue and mark the venue used. -/
def buildExaminerVenueState (pres : List Presentation) : List (Nat × Nat) × List Nat :=
  pres.foldl (fun st p =>
    p.examiners.foldl (fun st2 ex => (mapSet st2.1 ex p.venue, setAdd st2.2 p.venue)) st)
    ([], [])

/-- First selection pass: walk the department examiners, taking those already
present in `examinerVenueMap` (reusing their mapped venue) and stopping once
`numExaminers` are collected. -/
def pickMappedExaminers (evMap : List (Nat × Nat)) (numExaminers : Nat) :
    List ExaminerRec → Option Nat → List ExaminerRec → Option Nat × List ExaminerRec
  | [], v, acc => (v, acc)
  | ex :: exs, v, acc =>
    match mapGet evMap ex.eid with
    | some ven =>
      let acc2 := acc ++ [ex]
      if numExaminers ≤ acc2.length then (some ven, acc2)
      else pickMappedExaminers evMap numExaminers exs (some ven) acc2
    | none => pickMappedExaminers evMap numExaminers exs v acc

/-- A successful suggestion: date, examiner list, venue id, department and
time range. -/
structure SlotSuggestion where
  date : Nat
  examiners : List ExaminerRec
  venue : Nat
  department : String
  timeRange : TimeRange
deriving DecidableEq, Repr

/-- Outcome of `smartSuggestSlot`: HTTP 200 with a suggestion, or an HTTP
400/404 error message. -/
inductive SuggestOutcome where
  | ok (s : SlotSuggestion)
  | err (msg : String)
deriving DecidableEq, Repr

/-- The per-time-slot loop of `smartSuggestSlot` (lines 580-620): for each
ladder start time, check student availability, pick examiners already mapped
to a venue, otherwise fall back to unmapped examiners plus the first unused
venue; return the first slot with a venue and enough examiners.  `venueUsed`
is threaded because the source mutates the outer set inside the loop.  When
the fallback finds no unused venue, `selectedVenue` keeps the value assigned
by the first pass (possibly none), exactly as in the source. -/
def suggestLoop (env : SuggestEnv) (studentIds : List Nat) (numExaminers duration : Nat)
    (bestDate : Nat) (department : String) (deptExaminers : List ExaminerRec)
    (evMap : List (Nat × Nat)) : List Nat → List Nat → SuggestOutcome
  | _, [] => .err "No suitable time slots available"
  | venueUsed, slot :: rest =>
    let tr := calculateTimeRange slot duration
    if !(isTimeSlotAvailable env.presentations bestDate tr.startTime tr.endTime [] none
        studentIds) then
      suggestLoop env studentIds numExaminers duration bestDate department deptExaminers
        evMap venueUsed rest
    else
      let picked := pickMappedExaminers evMap numExaminers deptExaminers none []
      let afterFallback :=
        if picked.2.length < numExaminers then
          let newExaminers := deptExaminers.filter (fun ex => (mapGet evMap ex.eid).isNone)
          if numExaminers ≤ newExaminers.length then
            match env.venues.find? (fun v => !(venueUsed.contains v.vid)) with
            | some v => (some v.vid, newExaminers.take numExaminers, setAdd venueUsed v.vid)
            | none => (picked.1, newExaminers.take numExaminers, venueUsed)
          else
            (picked.1, picked.2, venueUsed)
        else
          (picked.1, picked.2, venueUsed)
      match afterFallback.1 with
      | none =>
        suggestLoop env studentIds numExaminers duration bestDate department deptExaminers
          evMap afterFallback.2.2 rest
      | some ven =>
        if afterFallback.2.1.length < numExaminers then
          suggestLoop env studentIds numExaminers duration bestDate department deptExaminers
            evMap afterFallback.2.2 rest
        else
          .ok ⟨bestDate, afterFallback.2.1, ven, department, tr⟩

/-- `smartSuggestSlot` (presentation.controller.js lines 502-627): resolve
students, take the first student's department, collect department examiners
and venues, pick the best date over the next 14 days (the score loop does not
consult the candidate date, so every date scores the same), build the
examiner-to-venue map from that date's presentations, then run the time-slot
loop. -/
def smartSuggestSlot (env : SuggestEnv) (studentIds : List Nat)
    (numExaminers duration : Nat) : SuggestOutcome :=
  if studentIds.isEmpty then .err "studentIds array is required"
  else
    match env.students.filter (fun s => studentIds.contains s.sid) with
    | [] => .err "No valid students found"
    | st :: _ =>
      let department := st.department
      let deptExaminers := env.examiners.filter (fun ex => ex.department == department)
      if deptExaminers.isEmpty then .err "No examiners found in this department"
      else if env.venues.isEmpty then .err "No venues found"
      else
        match selectBestDate
            (fun _ => dateLectureScore env.timetables
              (deptExaminers.map (fun ex => ex.examiner_id)))
            (possibleDates env.today) with
        | none => .err "No suitable date found"
        | some bestDate =>
          let st0 := buildExaminerVenueState
            (env.presentations.filter (fun p => p.date == bestDate))
          suggestLoop env studentIds numExaminers duration bestDate department deptExaminers
            st0.1 st0.2 allTimeSlots

theorem selectBestDateAux_nil (score : Nat → Nat) (best minL : Option Nat) :
    selectBestDateAux score [] best minL = best := rfl

theorem selectBestDateAux_cons (score : Nat → Nat) (d : Nat) (ds : List Nat)
    (best minL : Option Nat) :
    selectBestDateAux score (d :: ds) best minL =
      (if ltInfinity (score d) minL then
        selectBestDateAux score ds (some d) (some (score d))
      else
        selectBestDateAux score ds best minL) := rfl

theorem selectBestDateAux_spec (score : Nat → Nat) :
    ∀ (dates : List Nat) (b : Nat),
      ∃ r, selectBestDateAux score dates (some b) (some (score b)) = some r ∧
        score r ≤ score b ∧ (∀ x ∈ dates, score r ≤ score x) ∧
        (r = b ∨ ∃ l1 l2, dates = l1 ++ r :: l2 ∧ score r < score b ∧
          ∀ y ∈ l1, score r < score y) := by
  intro dates
  induction dates with
  | nil =>
    intro b
    exact ⟨b, rfl, le_refl _, by simp, Or.inl rfl⟩
  | cons d ds ih =>
    intro b
    rw [selectBestDateAux_cons]
    by_cases hlt : score d < score b
    · rw [if_pos (by simpa [ltInfinity] using hlt)]
      obtain ⟨r, heq, hrb, hall, hcase⟩ := ih d
      refine ⟨r, heq, le_of_lt (lt_of_le_of_lt hrb hlt), ?_, Or.inr ?_⟩
      · intro x hx
        rcases List.mem_cons.mp hx with rfl | hx2
        · exact hrb
        · exact hall x hx2
      · rcases hcase with rfl | ⟨l1, l2, hds, hlt2, hfor⟩
        · exact ⟨[], ds, by simp, hlt, by simp⟩
        · refine ⟨d :: l1, l2, by simp [hds], lt_trans hlt2 hlt, ?_⟩
          intro y hy
          rcases List.mem_cons.mp hy with rfl | hy2
          · exact hlt2
          · exact hfor y hy2
    · rw [if_neg (by simpa [ltInfinity] using hlt)]
      obtain ⟨r, heq, hrb, hall, hcase⟩ := ih b
      have hbd : score b ≤ score d := Nat.le_of_not_lt hlt
      refine ⟨r, heq, hrb, ?_, ?_⟩
      · intro x hx
        rcases List.mem_cons.mp hx with rfl | hx2
        · exact le_trans hrb hbd
        · exact hall x hx2
      · rcases hcase with rfl | ⟨l1, l2, hds, hlt2, hfor⟩
        · exact Or.inl rfl
        · refine Or.inr ⟨d :: l1, l2, by simp [hds], hlt2, ?_⟩
          intro y hy
          rcases List.mem_cons.mp hy with rfl | hy2
          · exact lt_of_lt_of_le hlt2 hbd
          · exact hfor y hy2

theorem selectBestDate_spec (score : Nat → Nat) (dates : List Nat) (hne : dates ≠ []) :
    ∃ r l1 l2, selectBestDate score dates = some r ∧ dates = l1 ++ r :: l2 ∧
      (∀ y ∈ l1, score r < score y) ∧ (∀ x ∈ dates, score r ≤ score x) := by
  cases dates with
  | nil => exact absurd rfl hne
  | cons d ds =>
    unfold selectBestDate
    rw [selectBestDateAux_cons, if_pos (by simp [ltInfinity])]
    obtain ⟨r, heq, hrb, hall, hcase⟩ := selectBestDateAux_spec score ds d
    refine ⟨r, ?_⟩
    rcases hcase with rfl | ⟨l1, l2, hds, hlt2, hfor⟩
    · refine ⟨[], ds, heq, by simp, by simp, ?_⟩
      intro x hx
      rcases List.mem_cons.mp hx with rfl | hx2
      · exact le_refl _
      · exact hall x hx2
    · refine ⟨d :: l1, l2, heq, by simp [hds], ?_, ?_⟩
      · intro y hy
        rcases List.mem_cons.mp hy with rfl | hy2
        · exact hlt2
        · exact hfor y hy2
      · intro x hx
        rcases List.mem_cons.mp hx with rfl | hx2
        · exact hrb
        · exact hall x hx2

/-- Claim C7: both suggestion variants enumerate exactly 14 candidate dates
(the fresh variant starting today, the reschedule variant starting tomorrow),
and the bestDate loop returns the date of minimum score, ties broken by
enumeration order (every earlier date scores strictly higher). -/
theorem c7_fourteen_dates_min_selection :
    (∀ today : Nat, (possibleDates today).length = 14) ∧
    (∀ today i : Nat, i < 14 → (possibleDates today)[i]? = some (today + i)) ∧
    (∀ today : Nat, (possibleDatesReschedule today).length = 14) ∧
    (∀ today i : Nat, i < 14 → (possibleDatesReschedule today)[i]? = some (today + i + 1)) ∧
    (∀ (score : Nat → Nat) (dates : List Nat), dates ≠ [] →
      ∃ r l1 l2, selectBestDate score dates = some r ∧ dates = l1 ++ r :: l2 ∧
        (∀ y ∈ l1, score r < score y) ∧ (∀ x ∈ dates, score r ≤ score x)) := by
  refine ⟨?_, ?_, ?_, ?_, selectBestDate_spec⟩
  · intro today
    simp [possibleDates]
  · intro today i hi
    simp [possibleDates, List.getElem?_map, List.getElem?_range, hi]
  · intro today
    simp [possibleDatesReschedule]
  · intro today i hi
    simp [possibleDatesReschedule, List.getElem?_map, List.getElem?_range, hi]

/-- Witness for C7 at concrete inputs: date counts and entries for today = 100,
and the selection over dates [7, 5, 6] with the identity score picks 5 (the
unique minimum, after the strictly larger 7). -/
theorem c7_witness :
    (possibleDates 100).length = 14 ∧
    (possibleDates 100)[3]? = some 103 ∧
    (possibleDatesReschedule 100).length = 14 ∧
    (possibleDatesReschedule 100)[0]? = some 101 ∧
    (∃ r l1 l2, selectBestDate (fun n => n) [7, 5, 6] = some r ∧
      [7, 5, 6] = l1 ++ r :: l2 ∧ (∀ y ∈ l1, r < y) ∧ ∀ x ∈ [7, 5, 6], r ≤ x) :=
  ⟨c7_fourteen_dates_min_selection.1 100,
    c7_fourteen_dates_min_selection.2.1 100 3 (by decide),
    c7_fourteen_dates_min_selection.2.2.1 100,
    c7_fourteen_dates_min_selection.2.2.2.1 100 0 (by decide),
    c7_fourteen_dates_min_selection.2.2.2.2 (fun n => n) [7, 5, 6] (by decide)⟩

theorem selectBestDateAux_const (c : Nat) :
    ∀ (ds : List Nat) (b : Nat), selectBestDateAux (fun _ => c) ds (some b) (some c) = some b := by
  intro ds
  induction ds with
  | nil => intro b; rfl
  | cons d ds ih =>
    intro b
    rw [selectBestDateAux_cons]
    rw [if_neg (by simp [ltInfinity])]
    exact ih b

theorem selectBestDate_const (c : Nat) (d : Nat) (ds : List Nat) :
    selectBestDate (fun _ => c) (d :: ds) = some d := by
  unfold selectBestDate
  rw [selectBestDateAux_cons, if_pos (by simp [ltInfinity])]
  exact selectBestDateAux_const c ds d

theorem possibleDates_head (today : Nat) :
    ∃ tail, possibleDates today = today :: tail := by
  refine ⟨((List.range 13).map Nat.succ).map (fun i => today + i), ?_⟩
  simp [possibleDates, List.range_succ_eq_map]

theorem pickMapped_empty (n : Nat) :
    ∀ (exs : List ExaminerRec) (v : Option Nat) (acc : List ExaminerRec),
      pickMappedExaminers [] n exs v acc = (v, acc) := by
  intro exs
  induction exs with
  | nil => intro v acc; rfl
  | cons ex exs ih =>
    intro v acc
    show pickMappedExaminers [] n (ex :: exs) v acc = (v, acc)
    unfold pickMappedExaminers
    exact ih v acc

theorem isTimeSlotAvailable_nil (date startTime endTime : Nat) (examiners : List Nat)
    (venue : Option Nat) (students : List Nat) :
    isTimeSlotAvailable [] date startTime endTime examiners venue students = true := by
  unfold isTimeSlotAvailable examinerConflict venueConflict studentConflict
  cases venue <;> simp

theorem suggestLoop_cons (env : SuggestEnv) (studentIds : List Nat)
    (numExaminers duration bestDate : Nat) (department : String)
    (deptExaminers : List ExaminerRec) (evMap : List (Nat × Nat))
    (venueUsed : List Nat) (slot : Nat) (rest : List Nat) :
    suggestLoop env studentIds numExaminers duration bestDate department deptExaminers
        evMap venueUsed (slot :: rest) =
      (let tr := calculateTimeRange slot duration
      if !(isTimeSlotAvailable env.presentations bestDate tr.startTime tr.endTime [] none
          studentIds) then
        suggestLoop env studentIds numExaminers duration bestDate department deptExaminers
          evMap venueUsed rest
      else
        let picked := pickMappedExaminers evMap numExaminers deptExaminers none []
        let afterFallback :=
          if picked.2.length < numExaminers then
            let newExaminers := deptExaminers.filter (fun ex => (mapGet evMap ex.eid).isNone)
            if numExaminers ≤ newExaminers.length then
              match env.venues.find? (fun v => !(venueUsed.contains v.vid)) with
              | some v => (some v.vid, newExaminers.take numExaminers, setAdd venueUsed v.vid)
              | none => (picked.1, newExaminers.take numExaminers, venueUsed)
            else
              (picked.1, picked.2, venueUsed)
          else
            (picked.1, picked.2, venueUsed)
        match afterFallback.1 with
        | none =>
          suggestLoop env studentIds numExaminers duration bestDate department deptExaminers
            evMap afterFallback.2.2 rest
        | some ven =>
          if afterFallback.2.1.length < numExaminers then
            suggestLoop env studentIds numExaminers duration bestDate department deptExaminers
              evMap afterFallback.2.2 rest
          else
            .ok ⟨bestDate, afterFallback.2.1, ven, department, tr⟩) := rfl

theorem suggestLoop_first (env : SuggestEnv) (studentIds : List Nat)
    (bestDate : Nat) (dept : String) (e1 e2 : ExaminerRec) (erest : List ExaminerRec)
    (v : VenueRec) (vrest : List VenueRec) (rest : List Nat)
    (hpres : env.presentations = [])
    (hv : env.venues = v :: vrest) :
    suggestLoop env studentIds 2 60 bestDate dept (e1 :: e2 :: erest) [] [] (480 :: rest) =
      .ok ⟨bestDate, [e1, e2], v.vid, dept, ⟨480, 540⟩⟩ := by
  have htr : calculateTimeRange 480 60 = ⟨480, 540⟩ := by
    unfold calculateTimeRange
    norm_num
  have hnew : (e1 :: e2 :: erest).filter (fun ex => (mapGet [] ex.eid).isNone) =
      e1 :: e2 :: erest :=
    List.filter_eq_self.mpr (fun a _ => rfl)
  have hfindv : (v :: vrest).find? (fun w => !(([] : List Nat).contains w.vid)) = some v :=
    List.find?_cons_of_pos _ rfl
  rw [suggestLoop_cons, htr]
  dsimp only
  rw [hpres, isTimeSlotAvailable_nil]
  simp only [Bool.not_true, Bool.false_eq_true, if_false]
  rw [pickMapped_empty]
  dsimp only
  rw [if_pos (by norm_num : ([] : List ExaminerRec).length < 2)]
  rw [hnew]
  rw [if_pos (by simp : 2 ≤ (e1 :: e2 :: erest).length)]
  rw [hv, hfindv]
  dsimp only
  have htake : List.take 2 (e1 :: e2 :: erest) = [e1, e2] := rfl
  rw [htake]
  rw [if_neg (by norm_num : ¬ ([e1, e2] : List ExaminerRec).length < 2)]

/-- Claim C8: with no stored presentations, a resolvable non-empty student
list, at least two department examiners (all examiner ids distinct) and at
least one venue, `smartSuggestSlot` with numExaminers = 2 and duration = 60
returns the earliest candidate date (today) with time range 08:00-09:00
(480-540 minutes), two distinct examiners, and a venue. -/
theorem c8_fresh_state_suggestion :
    ∀ (env : SuggestEnv) (studentIds : List Nat) (st : StudentRec) (srest : List StudentRec),
      env.presentations = [] →
      studentIds ≠ [] →
      env.students.filter (fun s => studentIds.contains s.sid) = st :: srest →
      2 ≤ (env.examiners.filter (fun ex => ex.department == st.department)).length →
      (env.examiners.map (fun ex => ex.eid)).Nodup →
      env.venues ≠ [] →
      ∃ e1 e2 v vrest, env.venues = v :: vrest ∧
        smartSuggestSlot env studentIds 2 60 =
          .ok ⟨env.today, [e1, e2], v.vid, st.department, ⟨480, 540⟩⟩ ∧
        e1.eid ≠ e2.eid := by
  intro env studentIds st srest hpres hsne hfilter hlen hnodup hvne
  obtain ⟨v, vrest, hv⟩ : ∃ v vrest, env.venues = v :: vrest := by
    cases hvv : env.venues with
    | nil => exact absurd hvv hvne
    | cons v vrest => exact ⟨v, vrest, rfl⟩
  obtain ⟨e1, e2, erest, hdept⟩ : ∃ e1 e2 erest,
      env.examiners.filter (fun ex => ex.department == st.department) = e1 :: e2 :: erest := by
    cases hd : env.examiners.filter (fun ex => ex.department == st.department) with
    | nil =>
      rw [hd] at hlen
      simp at hlen
    | cons e1 t =>
      cases t with
      | nil =>
        rw [hd] at hlen
        simp at hlen
      | cons e2 erest => exact ⟨e1, e2, erest, rfl⟩
  have hne12 : e1.eid ≠ e2.eid := by
    have hsub : ((env.examiners.filter
        (fun ex => ex.department == st.department)).map (fun ex => ex.eid)).Nodup :=
      hnodup.sublist ((List.filter_sublist _).map _)
    rw [hdept] at hsub
    simp only [List.map_cons, List.nodup_cons] at hsub
    exact fun hcontra => hsub.1 (by rw [hcontra]; exact List.mem_cons_self _ _)
  have hempty : studentIds.isEmpty = false := by
    cases studentIds with
    | nil => exact absurd rfl hsne
    | cons a l => rfl
  obtain ⟨tail, htoday⟩ := possibleDates_head env.today
  refine ⟨e1, e2, v, vrest, hv, ?_, hne12⟩
  have htr : calculateTimeRange 480 60 = ⟨480, 540⟩ := by
    unfold calculateTimeRange
    norm_num
  have hnew : (e1 :: e2 :: erest).filter (fun ex => (mapGet [] ex.eid).isNone) =
      e1 :: e2 :: erest :=
    List.filter_eq_self.mpr (fun a _ => rfl)
  simp only [smartSuggestSlot, hempty, Bool.false_eq_true, if_false, hfilter, hdept, hv,
    List.isEmpty_cons, htoday, selectBestDate_const, hpres, List.filter_nil]
  have hbuild : buildExaminerVenueState [] = ([], []) := rfl
  rw [hbuild]
  have hslots : allTimeSlots = 480 :: [510, 540, 570, 600, 630, 660, 690, 720, 750, 780, 810,
      840, 870, 900, 930, 960, 990] := rfl
  rw [hslots]
  exact suggestLoop_first env studentIds env.today st.department e1 e2 erest v vrest _
    hpres hv

/-- Witness for C8 at a concrete input: two SE students, two SE examiners with
distinct ids, one venue, empty stores; the suggestion is today (day 50) at
480-540 with two distinct examiners and the venue. -/
theorem c8_witness :
    ∃ e1 e2 v vrest,
      ([⟨20, "V1"⟩] : List VenueRec) = v :: vrest ∧
      smartSuggestSlot
          ⟨50, [⟨1, "ST1", "SE"⟩, ⟨2, "ST2", "SE"⟩],
            [⟨10, "EX1", "SE"⟩, ⟨11, "EX2", "SE"⟩], [⟨20, "V1"⟩], [], []⟩ [1, 2] 2 60 =
        .ok ⟨50, [e1, e2], v.vid, "SE", ⟨480, 540⟩⟩ ∧
      e1.eid ≠ e2.eid :=
  c8_fresh_state_suggestion
    ⟨50, [⟨1, "ST1", "SE"⟩, ⟨2, "ST2", "SE"⟩],
      [⟨10, "EX1", "SE"⟩, ⟨11, "EX2", "SE"⟩], [⟨20, "V1"⟩], [], []⟩
    [1, 2] ⟨1, "ST1", "SE"⟩ [⟨2, "ST2", "SE"⟩]
    rfl (by decide) (by decide) (by decide) (by decide) (by decide)

/-- The presentation query of `checkAvailability` (presentation.controller.js
lines 253-261): same date and department, the venue when one was given, and
`$or` on shared students or shared examiners (an empty id list matches
nothing, as `$in` with an empty array does). -/
def checkAvailabilityQuery (db : List Presentation) (date : Nat) (department : String)
    (students examiners : List Nat) (venue : Option Nat) : List Presentation :=
  db.filter (fun p => p.date == date && p.department == department &&
    (match venue with
    | some v => p.venue == v
    | none => true) &&
    (p.students.any (fun s => students.contains s) ||
      p.examiners.any (fun e => examiners.contains e)))

/-- Ascending-by-start comparison used to sort the unavailable slots
(`.sort((a, b) => a.start - b.start)`). -/
def trLE (a b : TimeRange) : Prop :=
  a.startTime ≤ b.startTime

instance : DecidableRel trLE :=
  fun a b => inferInstanceAs (Decidable (a.startTime ≤ b.startTime))

instance : IsTotal TimeRange trLE :=
  ⟨fun a b => Nat.le_total a.startTime b.startTime⟩

instance : IsTrans TimeRange trLE :=
  ⟨fun _ _ _ hab hbc => Nat.le_trans hab hbc⟩

/-- The stable sort of the busy ranges by start time. -/
def sortBusy (rs : List TimeRange) : List TimeRange :=
  rs.insertionSort trLE

/-- The gap loop of `checkAvailability` (lines 283-307): walk the sorted busy
ranges keeping the running `previousEndTime` (starting at 08:00 = 480); emit
`previousEndTime .. slot.start` when the gap is positive and at least
`duration` long; after the loop emit `previousEndTime .. 18:00` under the same
length condition. -/
def gapsLoop (duration : Nat) : List TimeRange → Nat → List TimeRange
  | [], prevEnd =>
    if prevEnd < 1080 then
      if duration ≤ 1080 - prevEnd then [⟨prevEnd, 1080⟩] else []
    else []
  | b :: bs, prevEnd =>
    (if prevEnd < b.startTime then
      if duration ≤ b.startTime - prevEnd then [⟨prevEnd, b.startTime⟩] else []
    else []) ++ gapsLoop duration bs (max prevEnd b.endTime)

/-- Available slots computed from the retrieved presentations. -/
def computeAvailableSlots (pres : List Presentation) (duration : Nat) : List TimeRange :=
  gapsLoop duration (sortBusy (pres.map (fun p => p.timeRange))) 480

/-- `checkAvailability` (lines 224-314) after id resolution: when no
presentation matches the query the response is the single slot
08:00 - 18:00; otherwise the gap list.  Slots are embedded as numeric ranges
(the code renders them as "HH:MM - HH:MM" strings, an injective formatting
for minutes below 24:00). -/
def checkAvailability (db : List Presentation) (date : Nat) (department : String)
    (students examiners : List Nat) (venue : Option Nat) (duration : Nat) : List TimeRange :=
  let pres := checkAvailabilityQuery db date department students examiners venue
  if pres.isEmpty then [⟨480, 1080⟩]
  else computeAvailableSlots pres duration

theorem gapsLoop_nil (duration prevEnd : Nat) :
    gapsLoop duration [] prevEnd =
      (if prevEnd < 1080 then
        if duration ≤ 1080 - prevEnd then [⟨prevEnd, 1080⟩] else []
      else []) := rfl

theorem gapsLoop_cons (duration : Nat) (b : TimeRange) (bs : List TimeRange) (prevEnd : Nat) :
    gapsLoop duration (b :: bs) prevEnd =
      ((if prevEnd < b.startTime then
        if duration ≤ b.startTime - prevEnd then [⟨prevEnd, b.startTime⟩] else []
      else []) ++ gapsLoop duration bs (max prevEnd b.endTime)) := rfl

theorem gapsLoop_spec (duration : Nat) :
    ∀ (bs : List TimeRange) (prevEnd : Nat),
      480 ≤ prevEnd →
      bs.Pairwise trLE →
      ∀ s ∈ gapsLoop duration bs prevEnd,
        480 ≤ s.startTime ∧ prevEnd ≤ s.startTime ∧ duration ≤ s.endTime - s.startTime ∧
        s.startTime < s.endTime ∧
        (∀ b ∈ bs, ¬(s.startTime < b.endTime ∧ b.startTime < s.endTime)) ∧
        (s.endTime = 1080 ∨ ∃ b ∈ bs, s.endTime = b.startTime) := by
  intro bs
  induction bs with
  | nil =>
    intro prevEnd h480 _ s hs
    rw [gapsLoop_nil] at hs
    split_ifs at hs with h1 h2
    · rcases List.mem_singleton.mp hs with rfl
      refine ⟨h480, le_refl _, h2, ?_, by simp, Or.inl rfl⟩
      simpa using h1
    · cases hs
    · cases hs
  | cons b bs ih =>
    intro prevEnd h480 hsorted s hs
    obtain ⟨hb, htail⟩ := List.pairwise_cons.mp hsorted
    rw [gapsLoop_cons] at hs
    rcases List.mem_append.mp hs with hs1 | hs2
    · split_ifs at hs1 with h1 h2
      · rcases List.mem_singleton.mp hs1 with rfl
        refine ⟨h480, le_refl _, by simpa using h2, by simpa using h1, ?_, ?_⟩
        · intro c hc
          rcases List.mem_cons.mp hc with rfl | hc2
          · simp
          · have := hb c hc2
            unfold trLE at this
            simp only [not_and]
            intro _
            omega
        · exact Or.inr ⟨b, List.mem_cons_self _ _, rfl⟩
      · cases hs1
      · cases hs1
    · have h480x : 480 ≤ max prevEnd b.endTime := le_trans h480 (le_max_left _ _)
      obtain ⟨hx480, hxprev, hxdur, hxlt, hxov, hxend⟩ := ih (max prevEnd b.endTime) h480x htail s hs2
      refine ⟨hx480, le_trans (le_max_left _ _) hxprev, hxdur, hxlt, ?_, ?_⟩
      · intro c hc
        rcases List.mem_cons.mp hc with rfl | hc2
        · have : c.endTime ≤ max prevEnd c.endTime := le_max_right _ _
          simp only [not_and]
          intro hcon
          omega
        · exact hxov c hc2
      · rcases hxend with h | ⟨c, hc, hce⟩
        · exact Or.inl h
        · exact Or.inr ⟨c, List.mem_cons_of_mem _ hc, hce⟩

/-- Claim C9 counterexample: a matched presentation at 18:30-19:30 (1110-1170)
makes the gap algorithm emit the slot 08:00-18:30 (480-1110), which extends
past 18:00 (1080) — so not every returned slot lies within 08:00-18:00. -/
theorem c9_counterexample :
    checkAvailability [⟨0, 5, "SE", ⟨1110, 1170⟩, 60, 9, [3], [1]⟩] 5 "SE" [1] [] none 60 =
      [⟨480, 1110⟩] ∧
    (∃ s ∈ checkAvailability [⟨0, 5, "SE", ⟨1110, 1170⟩, 60, 9, [3], [1]⟩]
        5 "SE" [1] [] none 60, 1080 < s.endTime) := by
  constructor
  · decide
  · exact ⟨⟨480, 1110⟩, by decide, by decide⟩

/-- Claim C9 (amended): when no presentation matches, the result is exactly
the single slot 08:00 - 18:00; when at least one matches, every returned slot
is a gap of length at least the requested duration starting at or after
08:00 that overlaps none of the retrieved presentations' time ranges, and it
also ends by 18:00 whenever every retrieved presentation starts no later than
18:00. -/
theorem c9_gap_slots_spec :
    (∀ (db : List Presentation) (date : Nat) (department : String)
        (students examiners : List Nat) (venue : Option Nat) (duration : Nat),
        checkAvailabilityQuery db date department students examiners venue = [] →
        checkAvailability db date department students examiners venue duration =
          [⟨480, 1080⟩]) ∧
    (∀ (db : List Presentation) (date : Nat) (department : String)
        (students examiners : List Nat) (venue : Option Nat) (duration : Nat),
        checkAvailabilityQuery db date department students examiners venue ≠ [] →
        ∀ s ∈ checkAvailability db date department students examiners venue duration,
          480 ≤ s.startTime ∧ duration ≤ s.endTime - s.startTime ∧
          s.startTime < s.endTime ∧
          (∀ p ∈ checkAvailabilityQuery db date department students examiners venue,
            ¬(s.startTime < p.timeRange.endTime ∧ p.timeRange.startTime < s.endTime)) ∧
          ((∀ p ∈ checkAvailabilityQuery db date department students examiners venue,
            p.timeRange.startTime ≤ 1080) → s.endTime ≤ 1080)) := by
  constructor
  · intro db date department students examiners venue duration h
    simp [checkAvailability, h]
  · intro db date department students examiners venue duration hne s hs
    have hie : (checkAvailabilityQuery db date department students examiners venue).isEmpty =
        false := by
      cases hq : checkAvailabilityQuery db date department students examiners venue with
      | nil => exact absurd hq hne
      | cons a l => rfl
    simp only [checkAvailability, hie, Bool.false_eq_true, if_false] at hs
    unfold computeAvailableSlots at hs
    have hsorted : (sortBusy ((checkAvailabilityQuery db date department students examiners
        venue).map (fun p => p.timeRange))).Pairwise trLE :=
      List.sorted_insertionSort trLE _
    obtain ⟨h480, _, hdur, hlt, hov, hend⟩ :=
      gapsLoop_spec duration _ 480 (le_refl _) hsorted s hs
    refine ⟨h480, hdur, hlt, ?_, ?_⟩
    · intro p hp
      refine hov p.timeRange ?_
      exact ((List.perm_insertionSort trLE _).mem_iff).mpr (List.mem_map_of_mem _ hp)
    · intro hall
      rcases hend with h | ⟨b, hb, hbe⟩
      · omega
      · have hb2 : b ∈ (checkAvailabilityQuery db date department students examiners
            venue).map (fun p => p.timeRange) :=
          ((List.perm_insertionSort trLE _).mem_iff).mp hb
        obtain ⟨p, hp, rfl⟩ := List.mem_map.mp hb2
        have := hall p hp
        omega

/-- Witness for the amended C9 at concrete inputs: an empty store yields the
single full-day slot, and with one matched presentation at 10:00-11:00 the
returned slot 08:00-10:00 satisfies every amended property. -/
theorem c9_witness :
    (checkAvailability [] 5 "SE" [1] [] none 60 = [⟨480, 1080⟩]) ∧
    (480 ≤ (⟨480, 600⟩ : TimeRange).startTime ∧
      60 ≤ (⟨480, 600⟩ : TimeRange).endTime - (⟨480, 600⟩ : TimeRange).startTime ∧
      (⟨480, 600⟩ : TimeRange).startTime < (⟨480, 600⟩ : TimeRange).endTime ∧
      (∀ p ∈ checkAvailabilityQuery [⟨0, 5, "SE", ⟨600, 660⟩, 60, 9, [3], [1]⟩]
          5 "SE" [1] [] none,
        ¬((⟨480, 600⟩ : TimeRange).startTime < p.timeRange.endTime ∧
          p.timeRange.startTime < (⟨480, 600⟩ : TimeRange).endTime)) ∧
      ((∀ p ∈ checkAvailabilityQuery [⟨0, 5, "SE", ⟨600, 660⟩, 60, 9, [3], [1]⟩]
          5 "SE" [1] [] none,
        p.timeRange.startTime ≤ 1080) → (⟨480, 600⟩ : TimeRange).endTime ≤ 1080)) :=
  ⟨c9_gap_slots_spec.1 [] 5 "SE" [1] [] none 60 rfl,
    c9_gap_slots_spec.2 [⟨0, 5, "SE", ⟨600, 660⟩, 60, 9, [3], [1]⟩] 5 "SE" [1] [] none 60
      (by decide) ⟨480, 600⟩ (by decide)⟩
